import Mathlib

/-!
Verification development for the model-selection and ridge-regression
subsystem: the gradient-descent linear model (ridge_regression.py), the
cross-validator (cross_validate.py), exhaustive grid search
(grid_search.py) and randomized search (randomized_search.py).

Numeric values are embedded as exact rationals, numpy arrays as lists,
and Python exceptions as an explicit error type.  Methods that mutate
the model object are embedded as functions returning the updated model
together with the raised exception, if any, since in Python mutations
performed before a raise persist on the object.
-/

/-- Embeds the Python exception classes raised by the subsystem.
The spec names map as follows: ValidationError is valueError,
UnfittedModelError is warning (the source raises the builtin Warning),
UnknownParameterError is attributeError.  typeError and nameError embed
the builtin TypeError and NameError raised by slips in the source. -/
inductive PyError where
  | valueError (msg : String)
  | warning (msg : String)
  | attributeError (msg : String)
  | typeError (msg : String)
  | nameError (msg : String)
deriving DecidableEq, Repr

/-- Modelled from the spec: the external Dataset collaborator, an ordered
feature matrix (rows are examples) with a label vector.  The source class
lives outside the given files; per section 3 and section 6 of the spec it
only exposes read access to X and y and a shape operation. -/
structure Dataset where
  X : List (List ℚ)
  y : List ℚ
deriving DecidableEq, Repr

/-- Modelled from the spec: shape returns (n_examples, n_features). -/
def Dataset.shape (ds : Dataset) : ℕ × ℕ :=
  (ds.X.length, (ds.X.headD []).length)

/-- Dot product of two equal-length vectors. -/
def dotL (a b : List ℚ) : ℚ :=
  (List.zipWith (fun x y => x * y) a b).sum

/-- Embeds np.dot(X, v) for a matrix X and vector v: every row must have
the length of v, otherwise numpy raises a ValueError. -/
def npDotMatVec (X : List (List ℚ)) (v : List ℚ) : Except PyError (List ℚ) :=
  if X.all (fun row => row.length == v.length) then
    .ok (X.map (fun row => dotL row v))
  else
    .error (.valueError ("shapes not aligned"))

/-- Embeds np.dot(v, X) for a vector v and matrix X: the length of v must
equal the number of rows of X, otherwise numpy raises a ValueError. -/
def npDotVecMat (v : List ℚ) (X : List (List ℚ)) : Except PyError (List ℚ) :=
  if v.length == X.length then
    .ok (X.transpose.map (fun col => dotL v col))
  else
    .error (.valueError ("shapes not aligned"))

/-- Embeds elementwise subtraction of one-dimensional numpy arrays,
including the singleton broadcast case; mismatched lengths (with neither
side a singleton) raise a ValueError in numpy. -/
def npSub (a b : List ℚ) : Except PyError (List ℚ) :=
  if a.length == b.length then
    .ok (List.zipWith (fun x y => x - y) a b)
  else if b.length == 1 then
    .ok (a.map (fun x => x - b.headD 0))
  else if a.length == 1 then
    .ok (b.map (fun y => a.headD 0 - y))
  else
    .error (.valueError ("operands could not be broadcast together"))

/-- Modelled from the spec: the external metrics collaborator r2_score,
the coefficient of determination of predictions against true labels. -/
def r2_score (y_true y_pred : List ℚ) : ℚ :=
  let mean := y_true.sum / (y_true.length : ℚ)
  let ss_res := (List.zipWith (fun t p => (t - p) * (t - p)) y_true y_pred).sum
  let ss_tot := (y_true.map (fun t => (t - mean) * (t - mean))).sum
  1 - ss_res / ss_tot

/-- Embeds the RidgeRegression object: constructor parameters followed by
the attributes set in init (fitted, theta, theta_zero, cost_history).
The cost_history dict with integer keys is embedded as a function from
iteration index to an optional recorded cost. -/
structure RidgeRegression where
  l2_penalty : ℚ
  alpha : ℚ
  max_iter : ℤ
  tolerance : ℚ
  adaptative_alpha : Bool
  fitted : Bool
  theta : Option (List ℚ)
  theta_zero : Option ℚ
  cost_history : ℕ → Option ℚ

/-- Embeds the static method check_init of RidgeRegression: validates the
numeric constructor parameters in source order, raising ValueError with a
message naming the offending parameter. -/
def check_init (l2_penalty alpha : ℚ) (max_iter : ℤ) (tolerance : ℚ) :
    Except PyError Unit :=
  if l2_penalty ≤ 0 then
    .error (.valueError ("The value of l2_penalty must be positive."))
  else if alpha ≤ 0 then
    .error (.valueError ("The value of alpha must be positive."))
  else if max_iter < 1 then
    .error (.valueError ("The value of max_iter must be a positive integer."))
  else if tolerance ≤ 0 then
    .error (.valueError ("The value of tolerance must be positive."))
  else
    .ok ()

/-- Embeds the RidgeRegression constructor: checks the parameters with
check_init, then stores them and initialises fitted to False, theta and
theta_zero to None, and cost_history to the empty dict. -/
def RidgeRegression.new (l2_penalty alpha : ℚ) (max_iter : ℤ) (tolerance : ℚ)
    (adaptative_alpha : Bool) : Except PyError RidgeRegression :=
  match check_init l2_penalty alpha max_iter tolerance with
  | .error e => .error e
  | .ok _ =>
      .ok ⟨l2_penalty, alpha, max_iter, tolerance, adaptative_alpha,
           false, none, none, fun _ => none⟩

/-- Embeds the method gradient_descent_iter (source name with a leading
underscore): one gradient-descent step updating theta and theta_zero.
The source is only invoked after fit has set theta and theta_zero, so the
None defaults here are never reached from fit. -/
def RidgeRegression.gradient_descent_iter (mo : RidgeRegression)
    (dataset : Dataset) (m : ℕ) : Except PyError RidgeRegression :=
  let th := mo.theta.getD []
  let th0 := mo.theta_zero.getD 0
  match npDotMatVec dataset.X th with
  | .error e => .error e
  | .ok xv =>
    let y_pred := xv.map (fun t => t + th0)
    match npSub y_pred dataset.y with
    | .error e => .error e
    | .ok resid =>
      match npDotVecMat resid dataset.X with
      | .error e => .error e
      | .ok rX =>
        let gradient := rX.map (fun t => mo.alpha / (m : ℚ) * t)
        let penalization_term :=
          th.map (fun t => t * mo.alpha * (mo.l2_penalty / (m : ℚ)))
        let theta1 :=
          List.zipWith (fun x y => x - y)
            (List.zipWith (fun x y => x - y) th gradient) penalization_term
        let gradient_zero := mo.alpha / (m : ℚ) * resid.sum
        .ok { mo with theta := some theta1,
                      theta_zero := some (th0 - gradient_zero) }

/-- Embeds the method predict: raises the builtin Warning when the model
is unfitted, otherwise returns the linear projection of the dataset. -/
def RidgeRegression.predict (mo : RidgeRegression) (dataset : Dataset) :
    Except PyError (List ℚ) :=
  if !mo.fitted then
    .error (.warning ("Fit RidgeRegression before calling predict."))
  else
    match mo.theta with
    | none => .error (.typeError ("unsupported operand type"))
    | some th =>
      match npDotMatVec dataset.X th with
      | .error e => .error e
      | .ok xv => .ok (xv.map (fun t => t + mo.theta_zero.getD 0))

/-- Embeds the method score: raises the builtin Warning when the model is
unfitted, otherwise applies the external r2_score to true labels and
predictions. -/
def RidgeRegression.score (mo : RidgeRegression) (dataset : Dataset) :
    Except PyError ℚ :=
  if !mo.fitted then
    .error (.warning ("Fit RidgeRegression before calling score."))
  else
    match mo.predict dataset with
    | .error e => .error e
    | .ok y_pred => .ok (r2_score dataset.y y_pred)

/-- Embeds the method cost: raises the builtin Warning when the model is
unfitted, otherwise returns the ridge cost
(sse plus l2 penalty times the squared norm of theta) over twice the
number of examples. -/
def RidgeRegression.cost (mo : RidgeRegression) (dataset : Dataset) :
    Except PyError ℚ :=
  if !mo.fitted then
    .error (.warning ("Fit RidgeRegression before calling cost."))
  else
    match mo.predict dataset with
    | .error e => .error e
    | .ok y_pred =>
      match npSub y_pred dataset.y with
      | .error e => .error e
      | .ok resid =>
        let sse := (resid.map (fun t => t * t)).sum
        let regularization :=
          mo.l2_penalty * ((mo.theta.getD []).map (fun t => t * t)).sum
        .ok ((sse + regularization) / (2 * (dataset.y.length : ℚ)))

/-- Lookup of cost_history at index i - 1 with the convention of the
source, where the dict lookup at key -1 (when i = 0) misses and yields
the +infinity default, so the convergence test is false there. -/
def prevCost (mo : RidgeRegression) (i : ℕ) : Option ℚ :=
  if i = 0 then none else mo.cost_history (i - 1)

/-- Dict update cost_history[i] = c. -/
def histUpdate (h : ℕ → Option ℚ) (i : ℕ) (c : ℚ) : ℕ → Option ℚ :=
  fun j => if j = i then some c else h j

/-- Result of a fit call: the model object after the call, the final value
of the loop counter, the costs recorded during this call in iteration
order, and the exception raised partway, if any. -/
structure FitOut where
  model : RidgeRegression
  iters : ℕ
  costs : List ℚ
  err : Option PyError

/-- Embeds the while loop of the method regular_fit (source name with a
leading underscore): iterates while i is below max_iter and the model has
not converged; convergence holds when the absolute difference between the
cost just recorded and the previous recorded cost is below tolerance (a
missing previous entry reads as +infinity, so the test is false then). -/
def RidgeRegression.regular_fit_go (dataset : Dataset) (m : ℕ) :
    ℕ → ℕ → RidgeRegression → FitOut
  | 0, i, mo => ⟨mo, i, [], none⟩
  | fuel + 1, i, mo =>
    match mo.gradient_descent_iter dataset m with
    | .error e => ⟨mo, i, [], some e⟩
    | .ok mo1 =>
      match mo1.cost dataset with
      | .error e => ⟨mo1, i, [], some e⟩
      | .ok c =>
        let mo2 := { mo1 with cost_history := histUpdate mo1.cost_history i c }
        let conv :=
          match prevCost mo2 i with
          | none => false
          | some prev => decide (|c - prev| < mo2.tolerance)
        if conv then ⟨mo2, i + 1, [c], none⟩
        else
          let r := RidgeRegression.regular_fit_go dataset m fuel (i + 1) mo2
          ⟨r.model, r.iters, c :: r.costs, r.err⟩

/-- Embeds the method regular_fit: resets theta to the all-zero vector of
length n_features and theta_zero to zero, then runs the gradient-descent
loop at most max_iter times with early exit on convergence. -/
def RidgeRegression.regular_fit (mo : RidgeRegression) (dataset : Dataset) :
    FitOut :=
  let m := dataset.shape.1
  let n := dataset.shape.2
  let mo0 := { mo with theta := some (List.replicate n 0),
                       theta_zero := some (0 : ℚ) }
  RidgeRegression.regular_fit_go dataset m mo.max_iter.toNat 0 mo0

/-- Embeds the for loop of the method adaptative_fit (source name with a
leading underscore): always runs through the whole range of max_iter
iterations; every time the convergence condition holds the learning rate
alpha is halved in place and never restored. -/
def RidgeRegression.adaptative_fit_go (dataset : Dataset) (m : ℕ) :
    ℕ → ℕ → RidgeRegression → FitOut
  | 0, i, mo => ⟨mo, i, [], none⟩
  | fuel + 1, i, mo =>
    match mo.gradient_descent_iter dataset m with
    | .error e => ⟨mo, i, [], some e⟩
    | .ok mo1 =>
      match mo1.cost dataset with
      | .error e => ⟨mo1, i, [], some e⟩
      | .ok c =>
        let mo2 := { mo1 with cost_history := histUpdate mo1.cost_history i c }
        let is_lower :=
          match prevCost mo2 i with
          | none => false
          | some prev => decide (|c - prev| < mo2.tolerance)
        let mo3 := if is_lower then { mo2 with alpha := mo2.alpha / 2 } else mo2
        let r := RidgeRegression.adaptative_fit_go dataset m fuel (i + 1) mo3
        ⟨r.model, r.iters, c :: r.costs, r.err⟩

/-- Embeds the method adaptative_fit: resets theta to the all-zero vector
and theta_zero to zero, then runs exactly max_iter gradient-descent
iterations, halving alpha whenever the convergence condition holds. -/
def RidgeRegression.adaptative_fit (mo : RidgeRegression) (dataset : Dataset) :
    FitOut :=
  let m := dataset.shape.1
  let n := dataset.shape.2
  let mo0 := { mo with theta := some (List.replicate n 0),
                       theta_zero := some (0 : ℚ) }
  RidgeRegression.adaptative_fit_go dataset m mo.max_iter.toNat 0 mo0

/-- Embeds the method fit: sets the fitted flag to True first, then
dispatches on adaptative_alpha to the adaptive or the regular policy. -/
def RidgeRegression.fit (mo : RidgeRegression) (dataset : Dataset) : FitOut :=
  let mo1 := { mo with fitted := true }
  if mo.adaptative_alpha then mo1.adaptative_fit dataset
  else mo1.regular_fit dataset

/-- The sequence of convergence decisions taken by the fitting loops along
a recorded cost sequence, starting from a given previous cost (none plays
the +infinity default of the first iteration). -/
def convFlags (tolerance : ℚ) : Option ℚ → List ℚ → List Bool
  | _, [] => []
  | prev, c :: cs =>
    (match prev with
     | none => false
     | some p => decide (|c - p| < tolerance)) :: convFlags tolerance (some c) cs

/-- The duck-typed estimator interface used by the model-selection layer:
any object exposing fit, predict and score, plus the dynamic attribute
access (hasattr, setattr) the search components use and the class name
shown in their error messages.  The state type is the object and fit
returns the object after the call together with the raised exception, if
any, since a Python fit mutates the object in place before raising. -/
structure PyEstimator (σ : Type) (V : Type) where
  className : String
  fit : σ → Dataset → σ × Option PyError
  score : σ → Dataset → Except PyError ℚ
  predict : σ → Dataset → Except PyError (List ℚ)
  hasattr : String → Bool
  setattr : σ → String → V → σ

/-- The dictionary returned by cross_validate: the three parallel lists of
fold seeds, train scores and test scores. -/
structure CVScores where
  seeds : List ℕ
  train : List ℚ
  test : List ℚ
deriving DecidableEq, Repr

/-- Embeds the for loop of cross_validate over the folds.  Each fold draws
a seed from the ambient global random stream (randint 0 1000), splits via
the external Splitter, fits the model in place, then scores.  In the
branch with an external scoring function the source evaluates the name
score, which is not defined anywhere in the module, so Python raises a
NameError there before evaluating any argument; the dead argument text
would moreover predict on the test partition for the train score.  The
accumulated dict is extended at the end of the fold body; on a raise the
dict is discarded with the exception, as in the source. -/
def cross_validate_go {σ V : Type} (E : PyEstimator σ V)
    (split : Dataset → ℚ → ℕ → Dataset × Dataset) (omega : ℕ → ℕ)
    (dataset : Dataset) (test_size : ℚ)
    (scoring : Option (List ℚ → List ℚ → ℚ)) :
    ℕ → σ → ℕ → CVScores → Except PyError CVScores × σ × ℕ
  | 0, st, p, acc => (.ok acc, st, p)
  | fuel + 1, st, p, acc =>
    let seed := omega p % 1000
    let pd := split dataset test_size seed
    let fr := E.fit st pd.1
    match fr.2 with
    | some e => (.error e, fr.1, p + 1)
    | none =>
      match scoring with
      | none =>
        match E.score fr.1 pd.1 with
        | .error e => (.error e, fr.1, p + 1)
        | .ok train_score =>
          match E.score fr.1 pd.2 with
          | .error e => (.error e, fr.1, p + 1)
          | .ok test_score =>
            cross_validate_go E split omega dataset test_size scoring
              fuel fr.1 (p + 1)
              ⟨acc.seeds ++ [seed], acc.train ++ [train_score],
               acc.test ++ [test_score]⟩
      | some _ =>
        (.error (.nameError ("name score is not defined")), fr.1, p + 1)

/-- Embeds cross_validate: runs cv folds starting from the empty scores
dict.  The ambient global numpy random stream is made explicit as omega
together with a position p (each randint call consumes one draw), and the
external train_test_split collaborator is the split argument, which per
the spec is deterministic in its seed. -/
def cross_validate {σ V : Type} (E : PyEstimator σ V)
    (split : Dataset → ℚ → ℕ → Dataset × Dataset) (omega : ℕ → ℕ)
    (model : σ) (dataset : Dataset) (cv : ℕ) (test_size : ℚ)
    (scoring : Option (List ℚ → List ℚ → ℚ)) (p : ℕ) :
    Except PyError CVScores × σ × ℕ :=
  cross_validate_go E split omega dataset test_size scoring cv model p
    ⟨[], [], []⟩

/-- A score record returned by the search components: the cross-validation
dict extended with the hyperparameter combination used. -/
structure SearchRecord (V : Type) where
  seeds : List ℕ
  train : List ℚ
  test : List ℚ
  parameters : List (String × V)
deriving DecidableEq, Repr

/-- The Cartesian product of a list of candidate lists in the order of
itertools.product: the first list varies slowest. -/
def cartProd {V : Type} : List (List V) → List (List V)
  | [] => [[]]
  | l :: ls => l.flatMap (fun v => (cartProd ls).map (fun c => v :: c))

/-- Sets the attributes named by keys to the values of one combination,
in declared key order, as the setattr loop of grid_search_cv does. -/
def setParams {σ V : Type} (E : PyEstimator σ V) (st : σ) :
    List (String × V) → σ
  | [] => st
  | (k, v) :: rest => setParams E (E.setattr st k v) rest

/-- Embeds the combination loop of grid_search_cv: for each combination,
mutate the single shared model, cross-validate it, attach the combination
and append the record.  An exception from cross-validation propagates,
leaving behind the model state and random-stream position reached. -/
def grid_search_go {σ V : Type} (E : PyEstimator σ V)
    (split : Dataset → ℚ → ℕ → Dataset × Dataset) (omega : ℕ → ℕ)
    (dataset : Dataset) (cv : ℕ) (test_size : ℚ)
    (scoring : Option (List ℚ → List ℚ → ℚ)) (keys : List String) :
    List (List V) → σ → ℕ → List (SearchRecord V) →
    Except PyError (List (SearchRecord V)) × σ × ℕ
  | [], st, p, acc => (.ok acc, st, p)
  | comb :: rest, st, p, acc =>
    let st1 := setParams E st (keys.zip comb)
    let r := cross_validate E split omega st1 dataset cv test_size scoring p
    match r.1 with
    | .error e => (.error e, r.2.1, r.2.2)
    | .ok sc =>
      grid_search_go E split omega dataset cv test_size scoring keys
        rest r.2.1 r.2.2
        (acc ++ [⟨sc.seeds, sc.train, sc.test, keys.zip comb⟩])

/-- Embeds grid_search_cv: first checks that every name in the parameter
grid is an attribute of the model, raising AttributeError naming the
model class and the first offending parameter; then cross-validates every
combination of the Cartesian product of the value lists.  The insertion
order of the Python dict parameter_grid is the list order here. -/
def grid_search_cv {σ V : Type} (E : PyEstimator σ V)
    (split : Dataset → ℚ → ℕ → Dataset × Dataset) (omega : ℕ → ℕ)
    (model : σ) (dataset : Dataset) (parameter_grid : List (String × List V))
    (cv : ℕ) (test_size : ℚ) (scoring : Option (List ℚ → List ℚ → ℚ))
    (p : ℕ) : Except PyError (List (SearchRecord V)) × σ × ℕ :=
  match (parameter_grid.map Prod.fst).find? (fun k => !(E.hasattr k)) with
  | some bad =>
    (.error (.attributeError
      ("The model " ++ E.className ++ " does not have the parameter "
        ++ bad ++ ".")), model, p)
  | none =>
    grid_search_go E split omega dataset cv test_size scoring
      (parameter_grid.map Prod.fst)
      (cartProd (parameter_grid.map Prod.snd)) model p []

/-- Embeds check_params of randomized_search.py: validates cv against the
number of examples, n_iter and test_size, raising ValueError. -/
def check_params (dataset : Dataset) (cv n_iter : ℤ) (test_size : ℚ) :
    Except PyError Unit :=
  if cv < 1 ∨ cv > (dataset.shape.1 : ℤ) then
    .error (.valueError
      ("The value of cv must be an integer belonging to [1, dim_0(dataset)]."))
  else if n_iter < 1 then
    .error (.valueError ("The value of n_iter must be a positive integer."))
  else if test_size ≤ 0 ∨ test_size ≥ 1 then
    .error (.valueError ("The value of test_size must be in (0, 1)."))
  else
    .ok ()

/-- Embeds one trial of the n_iter loop of randomized_search_cv together
with the loop itself.  Each trial copies the model (deepcopy has value
semantics here), derives seed_hyper as random_state plus the trial index
when random_state is an int, samples one value per distribution key with
a fresh RandomState seeded by seed_hyper (rsChoice embeds that sampler;
with a None seed it abstracts the ambient entropy), and sets the sampled
attributes on the copy.  The trial then reaches line 104 of the source,
which passes six positional arguments to the five-parameter
cross_validate, so Python raises a TypeError at every trial and the
recursive continuation of the loop is unreachable. -/
def randomized_search_go {σ V : Type} (E : PyEstimator σ V)
    (rsChoice : Option ℤ → List V → V) (random_state : Option ℤ)
    (parameter_distribution : List (String × List V)) :
    ℕ → ℕ → σ → ℕ → List (SearchRecord V) →
    Except PyError (List (SearchRecord V)) × σ × ℕ
  | 0, _, st, p, acc => (.ok acc, st, p)
  | _ + 1, i, st, p, _ =>
    let modelCopy := st
    let seed_hyper := random_state.map (fun r => r + (i : ℤ))
    let sampled := parameter_distribution.map
      (fun kv => (kv.1, rsChoice seed_hyper kv.2))
    let _ := setParams E modelCopy sampled
    (.error (.typeError
      ("cross_validate() takes from 2 to 5 positional arguments but 6 were given")),
     st, p)

/-- Embeds randomized_search_cv: validates the numeric parameters with
check_params, checks every distribution key is an attribute of the model,
then runs the n_iter trial loop, whose every trial raises a TypeError at
the malformed cross_validate call of line 104. -/
def randomized_search_cv {σ V : Type} (E : PyEstimator σ V)
    (split : Dataset → ℚ → ℕ → Dataset × Dataset) (omega : ℕ → ℕ)
    (rsChoice : Option ℤ → List V → V) (model : σ) (dataset : Dataset)
    (parameter_distribution : List (String × List V)) (cv : ℤ)
    (random_state : Option ℤ) (n_iter : ℤ) (test_size : ℚ)
    (scoring : Option (List ℚ → List ℚ → ℚ)) (p : ℕ) :
    Except PyError (List (SearchRecord V)) × σ × ℕ :=
  match check_params dataset cv n_iter test_size with
  | .error e => (.error e, model, p)
  | .ok _ =>
    match (parameter_distribution.map Prod.fst).find?
        (fun k => !(E.hasattr k)) with
    | some bad =>
      (.error (.attributeError
        ("The model " ++ E.className ++ " does not have the parameter "
          ++ bad ++ ".")), model, p)
    | none =>
      randomized_search_go E rsChoice random_state parameter_distribution
        n_iter.toNat 0 model p []

deriving instance DecidableEq for Except

/-- A trivial total estimator used as a concrete instance in closed
statements: fitting never fails and scoring always returns zero. -/
def dummyEst : PyEstimator Unit ℚ :=
  ⟨"LogisticRegression", fun s _ => (s, none), fun _ _ => .ok 0,
   fun _ _ => .ok [], fun _ => true, fun s _ _ => s⟩

/-- A concrete deterministic splitter instance for closed statements. -/
def split0 : Dataset → ℚ → ℕ → Dataset × Dataset := fun d _ _ => (d, d)

/-- A concrete ambient random stream for closed statements. -/
def omega0 : ℕ → ℕ := fun _ => 0

/-- A concrete two-example dataset for closed statements. -/
def ds2 : Dataset := ⟨[[1], [2]], [1, 2]⟩

def estNoUnknown : PyEstimator Unit ℚ :=
  ⟨"LogisticRegression", fun s _ => (s, none), fun _ _ => .ok 0,
   fun _ _ => .ok [], fun k => !(k == "unknown_param"), fun s _ _ => s⟩

def rrFreshC6 : RidgeRegression :=
  ⟨1, 1/2, 1000, 1, false, false, none, none, fun _ => none⟩

def rrC10 : RidgeRegression :=
  ⟨1, 1, 5, 1, false, false, none, none, fun _ => none⟩

def dsMalformed : Dataset := ⟨[[1], [2], [3]], [1, 2]⟩

def dsSingle : Dataset := ⟨[[2]], [0]⟩

def rrC5r : RidgeRegression :=
  ⟨1, 1, 3, 1000000, false, false, none, none, fun _ => none⟩

def rrC5a : RidgeRegression :=
  ⟨1, 1, 3, 1000000, true, false, none, none, fun _ => none⟩

def rrC3w : RidgeRegression :=
  ⟨1, 1, 2, 1, false, false, none, none, fun _ => none⟩

def rrC3a : RidgeRegression :=
  ⟨1, 1, 2, 1000000, true, false, none, none, fun _ => none⟩

def ds1 : Dataset := ⟨[[1]], [1]⟩

theorem gradient_descent_iter_fields (mo mo1 : RidgeRegression)
    (dataset : Dataset) (m : ℕ)
    (h : mo.gradient_descent_iter dataset m = .ok mo1) :
    mo1.l2_penalty = mo.l2_penalty ∧ mo1.alpha = mo.alpha ∧
    mo1.max_iter = mo.max_iter ∧ mo1.tolerance = mo.tolerance ∧
    mo1.adaptative_alpha = mo.adaptative_alpha ∧ mo1.fitted = mo.fitted ∧
    mo1.cost_history = mo.cost_history := by
  simp only [RidgeRegression.gradient_descent_iter] at h
  split at h
  · cases h
  · split at h
    · cases h
    · split at h
      · cases h
      · cases h
        exact ⟨rfl, rfl, rfl, rfl, rfl, rfl, rfl⟩

theorem regular_fit_go_fields (dataset : Dataset) (m : ℕ)
    (fuel : ℕ) : ∀ (i : ℕ) (mo : RidgeRegression),
    (RidgeRegression.regular_fit_go dataset m fuel i mo).model.l2_penalty
        = mo.l2_penalty ∧
    (RidgeRegression.regular_fit_go dataset m fuel i mo).model.alpha
        = mo.alpha ∧
    (RidgeRegression.regular_fit_go dataset m fuel i mo).model.max_iter
        = mo.max_iter ∧
    (RidgeRegression.regular_fit_go dataset m fuel i mo).model.tolerance
        = mo.tolerance ∧
    (RidgeRegression.regular_fit_go dataset m fuel i mo).model.adaptative_alpha
        = mo.adaptative_alpha ∧
    (RidgeRegression.regular_fit_go dataset m fuel i mo).model.fitted
        = mo.fitted := by
  induction fuel with
  | zero => intro i mo; exact ⟨rfl, rfl, rfl, rfl, rfl, rfl⟩
  | succ n ih =>
    intro i mo
    cases hg : mo.gradient_descent_iter dataset m with
    | error e =>
      simp [RidgeRegression.regular_fit_go, hg]
    | ok mo1 =>
      obtain ⟨h1, h2, h3, h4, h5, h6, h7⟩ :=
        gradient_descent_iter_fields mo mo1 dataset m hg
      cases hc : mo1.cost dataset with
      | error e =>
        simp [RidgeRegression.regular_fit_go, hg, hc, h1, h2, h3, h4, h5, h6]
      | ok c =>
        simp only [RidgeRegression.regular_fit_go, hg, hc]
        split
        · simp [h1, h2, h3, h4, h5, h6]
        · obtain ⟨g1, g2, g3, g4, g5, g6⟩ := ih (i + 1)
            { mo1 with cost_history := histUpdate mo1.cost_history i c }
          exact ⟨g1.trans h1, g2.trans h2, g3.trans h3, g4.trans h4,
            g5.trans h5, g6.trans h6⟩

theorem adaptative_fit_go_fields (dataset : Dataset) (m : ℕ)
    (fuel : ℕ) : ∀ (i : ℕ) (mo : RidgeRegression),
    (RidgeRegression.adaptative_fit_go dataset m fuel i mo).model.l2_penalty
        = mo.l2_penalty ∧
    (RidgeRegression.adaptative_fit_go dataset m fuel i mo).model.max_iter
        = mo.max_iter ∧
    (RidgeRegression.adaptative_fit_go dataset m fuel i mo).model.tolerance
        = mo.tolerance ∧
    (RidgeRegression.adaptative_fit_go dataset m fuel i mo).model.adaptative_alpha
        = mo.adaptative_alpha ∧
    (RidgeRegression.adaptative_fit_go dataset m fuel i mo).model.fitted
        = mo.fitted := by
  induction fuel with
  | zero => intro i mo; exact ⟨rfl, rfl, rfl, rfl, rfl⟩
  | succ n ih =>
    intro i mo
    cases hg : mo.gradient_descent_iter dataset m with
    | error e =>
      simp [RidgeRegression.adaptative_fit_go, hg]
    | ok mo1 =>
      obtain ⟨h1, h2, h3, h4, h5, h6, h7⟩ :=
        gradient_descent_iter_fields mo mo1 dataset m hg
      cases hc : mo1.cost dataset with
      | error e =>
        simp [RidgeRegression.adaptative_fit_go, hg, hc, h1, h3, h4, h5, h6]
      | ok c =>
        simp only [RidgeRegression.adaptative_fit_go, hg, hc]
        split
        · obtain ⟨g1, g2, g3, g4, g5⟩ := ih (i + 1)
            { mo1 with cost_history := histUpdate mo1.cost_history i c,
                       alpha := mo1.alpha / 2 }
          exact ⟨g1.trans h1, g2.trans h3, g3.trans h4, g4.trans h5,
            g5.trans h6⟩
        · obtain ⟨g1, g2, g3, g4, g5⟩ := ih (i + 1)
            { mo1 with cost_history := histUpdate mo1.cost_history i c }
          exact ⟨g1.trans h1, g2.trans h3, g3.trans h4, g4.trans h5,
            g5.trans h6⟩

/-- When no external scoring function is supplied and the model fitting
and scoring never raise, the fold loop of cross_validate succeeds and
extends the three parallel lists by exactly one entry per fold, consuming
one ambient random draw per fold. -/
theorem cross_validate_go_ok {σ V : Type} (E : PyEstimator σ V)
    (split : Dataset → ℚ → ℕ → Dataset × Dataset) (omega : ℕ → ℕ)
    (dataset : Dataset) (test_size : ℚ)
    (Hfit : ∀ s d, (E.fit s d).2 = none)
    (Hscore : ∀ s d, ∃ q, E.score s d = .ok q) :
    ∀ (fuel : ℕ) (st : σ) (p : ℕ) (acc : CVScores), ∃ sc st2,
      cross_validate_go E split omega dataset test_size none fuel st p acc
        = (.ok sc, st2, p + fuel) ∧
      sc.seeds.length = acc.seeds.length + fuel ∧
      sc.train.length = acc.train.length + fuel ∧
      sc.test.length = acc.test.length + fuel := by
  intro fuel
  induction fuel with
  | zero =>
    intro st p acc
    exact ⟨acc, st, by simp [cross_validate_go], by simp, by simp, by simp⟩
  | succ n ih =>
    intro st p acc
    obtain ⟨q1, hq1⟩ := Hscore (E.fit st (split dataset test_size
      (omega p % 1000)).1).1 (split dataset test_size (omega p % 1000)).1
    obtain ⟨q2, hq2⟩ := Hscore (E.fit st (split dataset test_size
      (omega p % 1000)).1).1 (split dataset test_size (omega p % 1000)).2
    obtain ⟨sc, st2, heq, hs, ht, hv⟩ := ih
      (E.fit st (split dataset test_size (omega p % 1000)).1).1 (p + 1)
      ⟨acc.seeds ++ [omega p % 1000], acc.train ++ [q1], acc.test ++ [q2]⟩
    refine ⟨sc, st2, ?_, ?_, ?_, ?_⟩
    · simp only [cross_validate_go, Hfit, hq1, hq2, heq]
      refine congrArg _ (congrArg _ ?_)
      omega
    · simp at hs; omega
    · simp at ht; omega
    · simp at hv; omega

/-- Specialisation of the fold-loop lemma to a cross_validate call: with
no external scoring function and never-raising fit and score, the call
returns three parallel sequences of length exactly cv. -/
theorem cross_validate_ok {σ V : Type} (E : PyEstimator σ V)
    (split : Dataset → ℚ → ℕ → Dataset × Dataset) (omega : ℕ → ℕ)
    (model : σ) (dataset : Dataset) (cv : ℕ) (test_size : ℚ) (p : ℕ)
    (Hfit : ∀ s d, (E.fit s d).2 = none)
    (Hscore : ∀ s d, ∃ q, E.score s d = .ok q) :
    ∃ sc st2,
      cross_validate E split omega model dataset cv test_size none p
        = (.ok sc, st2, p + cv) ∧
      sc.seeds.length = cv ∧ sc.train.length = cv ∧ sc.test.length = cv := by
  obtain ⟨sc, st2, heq, hs, ht, hv⟩ := cross_validate_go_ok E split omega
    dataset test_size Hfit Hscore cv model p ⟨[], [], []⟩
  exact ⟨sc, st2, heq, by simpa using hs, by simpa using ht,
    by simpa using hv⟩

/-- The Cartesian product has as many elements as the product of the list
lengths. -/
theorem cartProd_length {V : Type} :
    ∀ (ls : List (List V)), (cartProd ls).length = (ls.map List.length).prod := by
  intro ls
  induction ls with
  | nil => simp [cartProd]
  | cons l ls ih =>
    simp [cartProd, List.length_flatMap, ih, Function.comp]
    induction l with
    | nil => simp
    | cons v l ihl =>
      simp [ihl, ih]
      ring

/-- Every element of the Cartesian product selects one value per list. -/
theorem cartProd_mem_length {V : Type} :
    ∀ (ls : List (List V)) (c : List V), c ∈ cartProd ls →
      c.length = ls.length := by
  intro ls
  induction ls with
  | nil => intro c hc; simp [cartProd] at hc; simp [hc]
  | cons l ls ih =>
    intro c hc
    simp [cartProd] at hc
    obtain ⟨v, hv, d, hd, rfl⟩ := hc
    simp [ih d hd]

/-- Duplicate-free candidate lists yield a duplicate-free Cartesian
product. -/
theorem cartProd_nodup {V : Type} :
    ∀ (ls : List (List V)), (∀ l ∈ ls, l.Nodup) → (cartProd ls).Nodup := by
  intro ls
  induction ls with
  | nil => intro _; simp [cartProd]
  | cons l ls ih =>
    intro h
    have hl : l.Nodup := h l (by simp)
    have hrest : (cartProd ls).Nodup := ih (fun x hx => h x (by simp [hx]))
    simp only [cartProd]
    rw [List.nodup_flatMap]
    refine ⟨fun v _ => hrest.map (fun a b hab => by injection hab), ?_⟩
    refine hl.imp ?_
    intro a b hab
    simp only [Function.onFun, List.disjoint_left]
    rintro x hx hy
    simp at hx hy
    obtain ⟨c, _, rfl⟩ := hx
    obtain ⟨d, _, hdc⟩ := hy
    exact hab (by injection hdc with h1 h2; exact h1.symm)

/-- The combination loop of grid search, under never-raising fit and
score and no external scoring function, appends one record per
combination, carrying exactly the zipped key-value combination. -/
theorem grid_search_go_ok {σ V : Type} (E : PyEstimator σ V)
    (split : Dataset → ℚ → ℕ → Dataset × Dataset) (omega : ℕ → ℕ)
    (dataset : Dataset) (cv : ℕ) (test_size : ℚ) (keys : List String)
    (Hfit : ∀ s d, (E.fit s d).2 = none)
    (Hscore : ∀ s d, ∃ q, E.score s d = .ok q) :
    ∀ (combos : List (List V)) (st : σ) (p : ℕ)
      (acc : List (SearchRecord V)),
    ∃ recs st2 p2,
      grid_search_go E split omega dataset cv test_size none keys combos
          st p acc
        = (.ok (acc ++ recs), st2, p2) ∧
      recs.map (fun r => r.parameters) = combos.map (fun comb => keys.zip comb) ∧
      recs.length = combos.length := by
  intro combos
  induction combos with
  | nil =>
    intro st p acc
    exact ⟨[], st, p, by simp [grid_search_go], by simp, by simp⟩
  | cons comb rest ih =>
    intro st p acc
    obtain ⟨sc, st2, hcv, _, _, _⟩ := cross_validate_ok E split omega
      (setParams E st (keys.zip comb)) dataset cv test_size p Hfit Hscore
    obtain ⟨recs, st3, p3, heq, hmap, hlen⟩ := ih st2 (p + cv)
      (acc ++ [⟨sc.seeds, sc.train, sc.test, keys.zip comb⟩])
    refine ⟨⟨sc.seeds, sc.train, sc.test, keys.zip comb⟩ :: recs, st3, p3,
      ?_, ?_, ?_⟩
    · simp only [grid_search_go, hcv, heq]
      simp
    · simp [hmap]
    · simp [hlen]

theorem convFlags_length (tol : ℚ) :
    ∀ (po : Option ℚ) (costs : List ℚ),
      (convFlags tol po costs).length = costs.length := by
  intro po costs
  induction costs generalizing po with
  | nil => rfl
  | cons c cs ih => simp [convFlags, ih]

theorem convFlags_head (tol : ℚ) (costs : List ℚ) (h : 1 ≤ costs.length) :
    (convFlags tol none costs).head? = some false := by
  cases costs with
  | nil => simp at h
  | cons c cs => rfl

theorem regular_fit_go_spec (dataset : Dataset) (m : ℕ) (fuel : ℕ) :
    ∀ (i : ℕ) (mo : RidgeRegression) (po : Option ℚ) (r : FitOut),
    prevCost mo i = po →
    RidgeRegression.regular_fit_go dataset m fuel i mo = r →
    r.err = none →
    r.iters = i + r.costs.length ∧
    r.costs.length ≤ fuel ∧
    (1 ≤ fuel → 1 ≤ r.costs.length) ∧
    (convFlags mo.tolerance po r.costs).take (r.costs.length - 1)
      = List.replicate (r.costs.length - 1) false ∧
    (r.costs.length < fuel →
      (convFlags mo.tolerance po r.costs).drop (r.costs.length - 1) = [true]) := by
  induction fuel with
  | zero =>
    intro i mo po r hpo hr herr
    have hr0 : r = ⟨mo, i, [], none⟩ := hr.symm.trans rfl
    subst hr0
    refine ⟨rfl, by simp, by omega, rfl, by intro h; simp at h⟩
  | succ n ih =>
    intro i mo po r hpo hr herr
    cases hg : mo.gradient_descent_iter dataset m with
    | error e =>
      simp only [RidgeRegression.regular_fit_go, hg] at hr
      subst hr
      cases herr
    | ok mo1 =>
      obtain ⟨h1, h2, h3, h4, h5, h6, h7⟩ :=
        gradient_descent_iter_fields mo mo1 dataset m hg
      cases hc : mo1.cost dataset with
      | error e =>
        simp only [RidgeRegression.regular_fit_go, hg, hc] at hr
        subst hr
        cases herr
      | ok c =>
        simp only [RidgeRegression.regular_fit_go, hg, hc] at hr
        have hpc : prevCost
            { mo1 with cost_history := histUpdate mo1.cost_history i c } i
            = po := by
          unfold prevCost at hpo ⊢
          rcases Nat.eq_zero_or_pos i with h0 | h0
          · simp only [h0, if_pos rfl] at hpo ⊢
            exact hpo
          · have hne : i - 1 ≠ i := by omega
            simp only [if_neg (by omega : ¬ i = 0)] at hpo ⊢
            simp only [histUpdate, if_neg hne]
            rw [h7]
            exact hpo
        rw [hpc] at hr
        rw [show mo.tolerance = mo1.tolerance from h4.symm]
        cases hfl : (match po with
          | none => false
          | some prev => decide (|c - prev| < mo1.tolerance)) with
        | true =>
          rw [hfl, if_pos rfl] at hr
          subst hr
          refine ⟨by simp, by simp, by simp, by simp [convFlags], ?_⟩
          intro _
          cases po with
          | none => cases hfl
          | some prev =>
            simp only [convFlags, convFlags.eq_1]
            simp only [convFlags] at hfl ⊢
            simp [hfl]
        | false =>
          rw [hfl, if_neg (by simp)] at hr
          subst hr
          have hprev : prevCost
              { mo1 with cost_history := histUpdate mo1.cost_history i c }
              (i + 1) = some c := by
            unfold prevCost
            simp [histUpdate]
          obtain ⟨g1, g2, g3, g4, g5⟩ := ih (i + 1)
            { mo1 with cost_history := histUpdate mo1.cost_history i c }
            (some c)
            (RidgeRegression.regular_fit_go dataset m n (i + 1)
              { mo1 with cost_history := histUpdate mo1.cost_history i c })
            hprev rfl herr
          set r2 := RidgeRegression.regular_fit_go dataset m n (i + 1)
            { mo1 with cost_history := histUpdate mo1.cost_history i c }
            with hr2
          dsimp only at g4 g5 ⊢
          have hflags : convFlags mo1.tolerance po (c :: r2.costs)
              = false :: convFlags mo1.tolerance (some c) r2.costs := by
            cases po with
            | none => simp [convFlags]
            | some prev =>
              simp only [convFlags]
              simp only [convFlags] at hfl
              rw [hfl]
          refine ⟨?_, ?_, ?_, ?_, ?_⟩
          · simp only [List.length_cons]
            omega
          · simp only [List.length_cons]
            omega
          · intro _
            simp only [List.length_cons]
            omega
          · rw [hflags]
            simp only [List.length_cons]
            rcases Nat.eq_zero_or_pos r2.costs.length with hz | hz
            · simp [hz]
            · obtain ⟨k, hk⟩ : ∃ k, r2.costs.length = k + 1 :=
                ⟨r2.costs.length - 1, by omega⟩
              rw [hk] at g4 ⊢
              simp only [Nat.add_sub_cancel] at g4 ⊢
              rw [List.take_succ_cons, List.replicate_succ]
              exact congrArg _ g4
          · intro hlt
            simp only [List.length_cons] at hlt
            rw [hflags]
            simp only [List.length_cons]
            have hz : 1 ≤ r2.costs.length := g3 (by omega)
            rw [show r2.costs.length + 1 - 1 = (r2.costs.length - 1) + 1
              from by omega]
            rw [List.drop_succ_cons]
            exact g5 (by omega)

theorem adaptative_fit_go_spec (dataset : Dataset) (m : ℕ) (fuel : ℕ) :
    ∀ (i : ℕ) (mo : RidgeRegression) (po : Option ℚ) (r : FitOut),
    prevCost mo i = po →
    RidgeRegression.adaptative_fit_go dataset m fuel i mo = r →
    r.err = none →
    r.iters = i + fuel ∧
    r.costs.length = fuel ∧
    r.model.alpha
      = mo.alpha / 2 ^ ((convFlags mo.tolerance po r.costs).count true) := by
  induction fuel with
  | zero =>
    intro i mo po r hpo hr herr
    have hr0 : r = ⟨mo, i, [], none⟩ := hr.symm.trans rfl
    subst hr0
    refine ⟨rfl, rfl, by simp [convFlags]⟩
  | succ n ih =>
    intro i mo po r hpo hr herr
    cases hg : mo.gradient_descent_iter dataset m with
    | error e =>
      simp only [RidgeRegression.adaptative_fit_go, hg] at hr
      subst hr
      cases herr
    | ok mo1 =>
      obtain ⟨h1, h2, h3, h4, h5, h6, h7⟩ :=
        gradient_descent_iter_fields mo mo1 dataset m hg
      cases hc : mo1.cost dataset with
      | error e =>
        simp only [RidgeRegression.adaptative_fit_go, hg, hc] at hr
        subst hr
        cases herr
      | ok c =>
        simp only [RidgeRegression.adaptative_fit_go, hg, hc] at hr
        have hpc : prevCost
            { mo1 with cost_history := histUpdate mo1.cost_history i c } i
            = po := by
          unfold prevCost at hpo ⊢
          rcases Nat.eq_zero_or_pos i with h0 | h0
          · simp only [h0, if_pos rfl] at hpo ⊢
            exact hpo
          · have hne : i - 1 ≠ i := by omega
            simp only [if_neg (by omega : ¬ i = 0)] at hpo ⊢
            simp only [histUpdate, if_neg hne]
            rw [h7]
            exact hpo
        rw [hpc] at hr
        rw [show mo.tolerance = mo1.tolerance from h4.symm]
        cases hfl : (match po with
          | none => false
          | some prev => decide (|c - prev| < mo1.tolerance)) with
        | true =>
          rw [hfl, if_pos rfl] at hr
          have hprev : prevCost
              { mo1 with cost_history := histUpdate mo1.cost_history i c,
                         alpha := mo1.alpha / 2 } (i + 1) = some c := by
            unfold prevCost
            simp [histUpdate]
          obtain ⟨g1, g2, g3⟩ := ih (i + 1)
            { mo1 with cost_history := histUpdate mo1.cost_history i c,
                       alpha := mo1.alpha / 2 }
            (some c)
            (RidgeRegression.adaptative_fit_go dataset m n (i + 1)
              { mo1 with cost_history := histUpdate mo1.cost_history i c,
                         alpha := mo1.alpha / 2 })
            hprev rfl (by rw [← hr] at herr; exact herr)
          subst hr
          set r2 := RidgeRegression.adaptative_fit_go dataset m n (i + 1)
            { mo1 with cost_history := histUpdate mo1.cost_history i c,
                       alpha := mo1.alpha / 2 }
          dsimp only at g3 ⊢
          have hflags : convFlags mo1.tolerance po (c :: r2.costs)
              = true :: convFlags mo1.tolerance (some c) r2.costs := by
            cases po with
            | none => cases hfl
            | some prev =>
              simp only [convFlags]
              simp only [convFlags] at hfl
              rw [hfl]
          refine ⟨by omega,
            by simp only [List.length_cons]; omega, ?_⟩
          rw [hflags, g3, h2]
          have hcnt : List.count true
              (true :: convFlags mo1.tolerance (some c) r2.costs)
              = List.count true (convFlags mo1.tolerance (some c) r2.costs)
                + 1 := by simp
          rw [hcnt, div_div, pow_succ, mul_comm]
        | false =>
          rw [hfl, if_neg (by simp)] at hr
          have hprev : prevCost
              { mo1 with cost_history := histUpdate mo1.cost_history i c }
              (i + 1) = some c := by
            unfold prevCost
            simp [histUpdate]
          obtain ⟨g1, g2, g3⟩ := ih (i + 1)
            { mo1 with cost_history := histUpdate mo1.cost_history i c }
            (some c)
            (RidgeRegression.adaptative_fit_go dataset m n (i + 1)
              { mo1 with cost_history := histUpdate mo1.cost_history i c })
            hprev rfl (by rw [← hr] at herr; exact herr)
          subst hr
          set r2 := RidgeRegression.adaptative_fit_go dataset m n (i + 1)
            { mo1 with cost_history := histUpdate mo1.cost_history i c }
          dsimp only at g3 ⊢
          have hflags : convFlags mo1.tolerance po (c :: r2.costs)
              = false :: convFlags mo1.tolerance (some c) r2.costs := by
            cases po with
            | none => simp [convFlags]
            | some prev =>
              simp only [convFlags]
              simp only [convFlags] at hfl
              rw [hfl]
          refine ⟨by omega,
            by simp only [List.length_cons]; omega, ?_⟩
          rw [hflags, g3, h2]
          have hcnt : List.count true
              (false :: convFlags mo1.tolerance (some c) r2.costs)
              = List.count true (convFlags mo1.tolerance (some c) r2.costs) := by
            simp
          rw [hcnt]

/-- Structure extensionality for the embedded model object. -/
theorem ridge_fields_determine {a b : RidgeRegression}
    (h1 : a.l2_penalty = b.l2_penalty) (h2 : a.alpha = b.alpha)
    (h3 : a.max_iter = b.max_iter) (h4 : a.tolerance = b.tolerance)
    (h5 : a.adaptative_alpha = b.adaptative_alpha) (h6 : a.fitted = b.fitted)
    (h7 : a.theta = b.theta) (h8 : a.theta_zero = b.theta_zero)
    (h9 : a.cost_history = b.cost_history) : a = b := by
  cases a
  cases b
  simp_all

/-- Structure extensionality for fit results. -/
theorem fitout_fields_determine {a b : FitOut}
    (h1 : a.model = b.model) (h2 : a.iters = b.iters)
    (h3 : a.costs = b.costs) (h4 : a.err = b.err) : a = b := by
  cases a
  cases b
  simp_all

/-- One gradient step never reads the cost history: running it from a
model with a replaced history yields the same outcome with the replaced
history carried along. -/
theorem gradient_descent_iter_hist (mo : RidgeRegression) (ds : Dataset)
    (m : ℕ) (H : ℕ → Option ℚ) :
    RidgeRegression.gradient_descent_iter { mo with cost_history := H } ds m
      = (RidgeRegression.gradient_descent_iter mo ds m).map
          (fun r => { r with cost_history := H }) := by
  unfold RidgeRegression.gradient_descent_iter
  dsimp only
  cases h1 : npDotMatVec ds.X (mo.theta.getD []) with
  | error e => simp [Except.map]
  | ok xv =>
    cases h2 : npSub (xv.map (fun t => t + mo.theta_zero.getD 0)) ds.y with
    | error e => simp [Except.map, h2]
    | ok resid =>
      cases h3 : npDotVecMat resid ds.X with
      | error e => simp [Except.map, h2, h3]
      | ok rX => simp [Except.map, h2, h3]

/-- The cost method never reads the cost history. -/
theorem cost_hist (mo : RidgeRegression) (ds : Dataset)
    (H : ℕ → Option ℚ) :
    RidgeRegression.cost { mo with cost_history := H } ds = mo.cost ds := rfl

/-- The regular fitting loop never rewrites a history entry below its
starting index. -/
theorem regular_fit_go_hist_lower (ds : Dataset) (m : ℕ) (fuel : ℕ) :
    ∀ (i : ℕ) (mo : RidgeRegression) (j : ℕ), j < i →
    (RidgeRegression.regular_fit_go ds m fuel i mo).model.cost_history j
      = mo.cost_history j := by
  induction fuel with
  | zero => intro i mo j hj; rfl
  | succ n ih =>
    intro i mo j hj
    cases hg : mo.gradient_descent_iter ds m with
    | error e => simp [RidgeRegression.regular_fit_go, hg]
    | ok mo1 =>
      have h7 := (gradient_descent_iter_fields mo mo1 ds m hg).2.2.2.2.2.2
      cases hc : mo1.cost ds with
      | error e => simp [RidgeRegression.regular_fit_go, hg, hc, h7]
      | ok c =>
        simp only [RidgeRegression.regular_fit_go, hg, hc]
        split
        · simp only [histUpdate]
          rw [if_neg (by omega : ¬ j = i), h7]
        · rw [ih (i + 1)
            { mo1 with cost_history := histUpdate mo1.cost_history i c }
            j (by omega)]
          simp only [histUpdate]
          rw [if_neg (by omega : ¬ j = i), h7]

/-- The regular loop counter never decreases. -/
theorem regular_fit_go_iters_ge (ds : Dataset) (m : ℕ) (fuel : ℕ) :
    ∀ (i : ℕ) (mo : RidgeRegression),
    i ≤ (RidgeRegression.regular_fit_go ds m fuel i mo).iters := by
  induction fuel with
  | zero => intro i mo; exact Nat.le.refl
  | succ n ih =>
    intro i mo
    cases hg : mo.gradient_descent_iter ds m with
    | error e => simp [RidgeRegression.regular_fit_go, hg]
    | ok mo1 =>
      cases hc : mo1.cost ds with
      | error e => simp [RidgeRegression.regular_fit_go, hg, hc]
      | ok c =>
        simp only [RidgeRegression.regular_fit_go, hg, hc]
        split
        · simp
        · have := ih (i + 1)
            { mo1 with cost_history := histUpdate mo1.cost_history i c }
          simp only []
          omega

/-- Rerunning the regular fitting loop from index zero is insensitive to
the cost history present at entry: the loop reads the history only at
indices it has itself written during this run (the read at index -1 of
the first iteration misses regardless).  The runs from two entry
histories produce the same counter, recorded costs, error and
coefficients; the final history agrees with the reference run on the
indices written this run and with the entry history elsewhere. -/
theorem regular_fit_go_congr (ds : Dataset) (m : ℕ) (fuel : ℕ) :
    ∀ (i : ℕ) (mo : RidgeRegression) (H : ℕ → Option ℚ),
    (i = 0 ∨ H (i - 1) = mo.cost_history (i - 1)) →
    (RidgeRegression.regular_fit_go ds m fuel i
        { mo with cost_history := H }).iters
      = (RidgeRegression.regular_fit_go ds m fuel i mo).iters ∧
    (RidgeRegression.regular_fit_go ds m fuel i
        { mo with cost_history := H }).costs
      = (RidgeRegression.regular_fit_go ds m fuel i mo).costs ∧
    (RidgeRegression.regular_fit_go ds m fuel i
        { mo with cost_history := H }).err
      = (RidgeRegression.regular_fit_go ds m fuel i mo).err ∧
    (RidgeRegression.regular_fit_go ds m fuel i
        { mo with cost_history := H }).model.theta
      = (RidgeRegression.regular_fit_go ds m fuel i mo).model.theta ∧
    (RidgeRegression.regular_fit_go ds m fuel i
        { mo with cost_history := H }).model.theta_zero
      = (RidgeRegression.regular_fit_go ds m fuel i mo).model.theta_zero ∧
    (∀ j : ℕ,
      (RidgeRegression.regular_fit_go ds m fuel i
          { mo with cost_history := H }).model.cost_history j
        = if i ≤ j ∧
            j < (RidgeRegression.regular_fit_go ds m fuel i mo).iters then
            (RidgeRegression.regular_fit_go ds m fuel i mo).model.cost_history j
          else H j) := by
  induction fuel with
  | zero =>
    intro i mo H hpre
    refine ⟨rfl, rfl, rfl, rfl, rfl, ?_⟩
    intro j
    rw [if_neg (by simp only [RidgeRegression.regular_fit_go]; omega)]
    rfl
  | succ n ih =>
    intro i mo H hpre
    cases hg : mo.gradient_descent_iter ds m with
    | error e =>
      have hgh := gradient_descent_iter_hist mo ds m H
      rw [hg] at hgh
      simp only [RidgeRegression.regular_fit_go, hg, hgh, Except.map]
      refine ⟨trivial, trivial, trivial, trivial, trivial, ?_⟩
      intro j
      rw [if_neg (by omega)]
    | ok mo1 =>
      have hgh := gradient_descent_iter_hist mo ds m H
      rw [hg] at hgh
      have h7 := (gradient_descent_iter_fields mo mo1 ds m hg).2.2.2.2.2.2
      have hch := cost_hist mo1 ds H
      cases hc : mo1.cost ds with
      | error e =>
        simp only [RidgeRegression.regular_fit_go, hg, hgh, Except.map,
          hch, hc]
        refine ⟨trivial, trivial, trivial, trivial, trivial, ?_⟩
        intro j
        rw [if_neg (by omega)]
      | ok c =>
        simp only [RidgeRegression.regular_fit_go, hg, hgh, Except.map,
          hch, hc]
        have hconv : (match prevCost
              { mo1 with cost_history := histUpdate H i c } i with
            | none => false
            | some prev => decide (|c - prev| < mo1.tolerance))
            = (match prevCost
              { mo1 with cost_history := histUpdate mo1.cost_history i c }
                i with
            | none => false
            | some prev => decide (|c - prev| < mo1.tolerance)) := by
          rcases Nat.eq_zero_or_pos i with h0 | h0
          · subst h0
            rfl
          · rcases hpre with h0 | hpre
            · omega
            · unfold prevCost
              simp only [if_neg (by omega : ¬ i = 0)]
              simp only [histUpdate, if_neg (by omega : ¬ i - 1 = i)]
              rw [hpre, h7]
        rw [hconv]
        cases hfl : (match prevCost
              { mo1 with cost_history := histUpdate mo1.cost_history i c }
                i with
            | none => false
            | some prev => decide (|c - prev| < mo1.tolerance)) with
        | true =>
          rw [if_pos rfl, if_pos rfl]
          refine ⟨rfl, rfl, rfl, rfl, rfl, ?_⟩
          intro j
          by_cases hj : i ≤ j ∧ j < i + 1
          · rw [if_pos hj]
            have hji : j = i := by omega
            subst hji
            simp only [histUpdate, if_pos rfl]
            rfl
          · rw [if_neg hj]
            have hji : ¬ j = i := by omega
            simp [histUpdate, hji]
        | false =>
          rw [if_neg (by simp), if_neg (by simp)]
          have hstep : ({ mo1 with cost_history := histUpdate H i c }
              : RidgeRegression)
              = { ({ mo1 with cost_history := histUpdate mo1.cost_history i c }
                  : RidgeRegression) with cost_history := histUpdate H i c } :=
            rfl
          rw [hstep]
          obtain ⟨g1, g2, g3, g4, g5, g6⟩ := ih (i + 1)
            { mo1 with cost_history := histUpdate mo1.cost_history i c }
            (histUpdate H i c)
            (Or.inr (by
              simp only [Nat.add_sub_cancel, histUpdate, if_pos rfl]
              rfl))
          refine ⟨by simpa using g1, by simpa using g2, by simpa using g3,
            by simpa using g4, by simpa using g5, ?_⟩
          intro j
          have hlow := regular_fit_go_hist_lower ds m n (i + 1)
            { mo1 with cost_history := histUpdate mo1.cost_history i c } i
            (by omega)
          have hge := regular_fit_go_iters_ge ds m n (i + 1)
            { mo1 with cost_history := histUpdate mo1.cost_history i c }
          have hj6 := g6 j
          by_cases hj : i ≤ j ∧ j < (RidgeRegression.regular_fit_go ds m n
              (i + 1)
              { mo1 with cost_history := histUpdate mo1.cost_history i c }).iters
          · rw [if_pos (by simpa using hj)]
            by_cases hji : j = i
            · subst hji
              rw [hj6, if_neg (by omega)]
              simp only [histUpdate, if_pos rfl]
              rw [hlow]
              simp only [histUpdate, if_pos rfl]
              rfl
            · rw [hj6, if_pos (by omega)]
          · rw [if_neg (by simpa using hj)]
            rw [hj6, if_neg (by omega)]
            simp only [histUpdate]
            rw [if_neg (by omega)]

/-- The regular fit method written as its loop with the reset model. -/
theorem regular_fit_as_go (mo : RidgeRegression) (dataset : Dataset) :
    RidgeRegression.regular_fit mo dataset
      = RidgeRegression.regular_fit_go dataset dataset.shape.1
          mo.max_iter.toNat 0
          { mo with theta := some (List.replicate dataset.shape.2 0),
                    theta_zero := some (0 : ℚ) } := rfl

/-- Claim C1: randomized_search_cv should return exactly n_iter score records with deterministic sampling seeds derived from random_state plus the trial index and deterministic fold seeds; on the code every call that passes validation instead raises a TypeError, because line 104 of randomized_search.py passes six positional arguments to the five-parameter cross_validate. This closed evaluation exhibits the failure on a concrete valid input. -/
theorem C1_randomized_search_arity_bug :
    randomized_search_cv dummyEst split0 omega0 (fun _ l => l.headD 0)
        () ds2 [("a", [(1 : ℚ), 2])] 1 (some 7) 3 (1/2) none 0
      = (.error (.typeError
          ("cross_validate() takes from 2 to 5 positional arguments but 6 were given")),
         (), 0) := by
  with_unfolding_all rfl

/-- Claim C2: with an external scoring function supplied, each fold of cross_validate should apply that function to true labels and predictions of the respective partition; the source instead evaluates the undefined name score (a slip for scoring), so Python raises a NameError before any scoring happens, and the dead argument text would moreover predict on the test partition for the train score. This closed evaluation exhibits the NameError on a concrete input. -/
theorem C2_external_scoring_name_bug :
    cross_validate dummyEst split0 omega0 () ds2 1 (3/10)
        (some (fun y_true y_pred => r2_score y_true y_pred)) 0
      = (.error (.nameError ("name score is not defined")), (), 1) := by
  with_unfolding_all rfl

/-- Claim C3, counterexample: in the adaptive policy a second fit does not reproduce the first, because the halvings of alpha performed during the first fit persist on the model and alpha is never reset; on this concrete model and dataset the learning rate after the second fit differs from the learning rate after the first. -/
theorem C3_refit_adaptive_counterexample :
    RidgeRegression.new 1 1 2 1000000 true = .ok rrC3a ∧
    (((rrC3a.fit ds1).model).fit ds1).model.alpha
      ≠ ((rrC3a.fit ds1).model).alpha := by
  constructor
  · with_unfolding_all rfl
  · with_unfolding_all decide

/-- Claim C3 (amended to the non-adaptive policy): fit resets theta and theta_zero to the all-zero initial state before each run and the loop reads the cost history only at indices written during the current run, so a second fit from the same inputs reproduces the first exactly: model state including the cost history, loop counter, recorded costs and error status all coincide. -/
theorem C3_refit_idempotent_nonadaptive (mo : RidgeRegression)
    (dataset : Dataset) (had : mo.adaptative_alpha = false)
    (herr : (mo.fit dataset).err = none) :
    ((mo.fit dataset).model).fit dataset = mo.fit dataset := by
  have hfit1 : mo.fit dataset
      = RidgeRegression.regular_fit { mo with fitted := true } dataset := by
    rw [show mo.fit dataset
        = if mo.adaptative_alpha then
            RidgeRegression.adaptative_fit { mo with fitted := true } dataset
          else
            RidgeRegression.regular_fit { mo with fitted := true } dataset
      from rfl, if_neg (by simp [had])]
  have hs1 : RidgeRegression.regular_fit { mo with fitted := true } dataset
      = RidgeRegression.regular_fit_go dataset dataset.shape.1
          mo.max_iter.toNat 0
          { mo with fitted := true,
                    theta := some (List.replicate dataset.shape.2 0),
                    theta_zero := some (0 : ℚ) } :=
    regular_fit_as_go { mo with fitted := true } dataset
  obtain ⟨f1, f2, f3, f4, f5, f6⟩ := regular_fit_go_fields dataset
    dataset.shape.1 mo.max_iter.toNat 0
    { mo with fitted := true,
              theta := some (List.replicate dataset.shape.2 0),
              theta_zero := some (0 : ℚ) }
  rw [hfit1, hs1] at herr ⊢
  have had2 : (RidgeRegression.regular_fit_go dataset dataset.shape.1
      mo.max_iter.toNat 0
      { mo with fitted := true,
                theta := some (List.replicate dataset.shape.2 0),
                theta_zero := some (0 : ℚ) }).model.adaptative_alpha
      = false := by rw [f5]; exact had
  have hfit2 : (RidgeRegression.regular_fit_go dataset dataset.shape.1
      mo.max_iter.toNat 0
      { mo with fitted := true,
                theta := some (List.replicate dataset.shape.2 0),
                theta_zero := some (0 : ℚ) }).model.fit dataset
      = RidgeRegression.regular_fit
          { (RidgeRegression.regular_fit_go dataset dataset.shape.1
              mo.max_iter.toNat 0
              { mo with fitted := true,
                        theta := some (List.replicate dataset.shape.2 0),
                        theta_zero := some (0 : ℚ) }).model
            with fitted := true } dataset := by
    rw [show (RidgeRegression.regular_fit_go dataset dataset.shape.1
        mo.max_iter.toNat 0
        { mo with fitted := true,
                  theta := some (List.replicate dataset.shape.2 0),
                  theta_zero := some (0 : ℚ) }).model.fit dataset
      = if (RidgeRegression.regular_fit_go dataset dataset.shape.1
            mo.max_iter.toNat 0
            { mo with fitted := true,
                      theta := some (List.replicate dataset.shape.2 0),
                      theta_zero := some (0 : ℚ) }).model.adaptative_alpha
        then
          RidgeRegression.adaptative_fit
            { (RidgeRegression.regular_fit_go dataset dataset.shape.1
                mo.max_iter.toNat 0
                { mo with fitted := true,
                          theta := some (List.replicate dataset.shape.2 0),
                          theta_zero := some (0 : ℚ) }).model
              with fitted := true } dataset
        else
          RidgeRegression.regular_fit
            { (RidgeRegression.regular_fit_go dataset dataset.shape.1
                mo.max_iter.toNat 0
                { mo with fitted := true,
                          theta := some (List.replicate dataset.shape.2 0),
                          theta_zero := some (0 : ℚ) }).model
              with fitted := true } dataset
      from rfl, if_neg (by simp [had2])]
  rw [hfit2]
  rw [regular_fit_as_go]
  have harg : ({ ({ (RidgeRegression.regular_fit_go dataset dataset.shape.1
          mo.max_iter.toNat 0
          { mo with fitted := true,
                    theta := some (List.replicate dataset.shape.2 0),
                    theta_zero := some (0 : ℚ) }).model with fitted := true })
        with theta := some (List.replicate dataset.shape.2 0),
             theta_zero := some (0 : ℚ) } : RidgeRegression)
      = { ({ mo with fitted := true,
                     theta := some (List.replicate dataset.shape.2 0),
                     theta_zero := some (0 : ℚ) } : RidgeRegression)
          with cost_history :=
            (RidgeRegression.regular_fit_go dataset dataset.shape.1
              mo.max_iter.toNat 0
              { mo with fitted := true,
                        theta := some (List.replicate dataset.shape.2 0),
                        theta_zero := some (0 : ℚ) }).model.cost_history } := by
    exact ridge_fields_determine f1 f2 f3 f4 f5 rfl rfl rfl rfl
  have hfuel : ({ (RidgeRegression.regular_fit_go dataset dataset.shape.1
        mo.max_iter.toNat 0
        { mo with fitted := true,
                  theta := some (List.replicate dataset.shape.2 0),
                  theta_zero := some (0 : ℚ) }).model with fitted := true }
      : RidgeRegression).max_iter.toNat = mo.max_iter.toNat := by
    show (RidgeRegression.regular_fit_go dataset dataset.shape.1
        mo.max_iter.toNat 0
        { mo with fitted := true,
                  theta := some (List.replicate dataset.shape.2 0),
                  theta_zero := some (0 : ℚ) }).model.max_iter.toNat
      = mo.max_iter.toNat
    rw [f3]
  rw [hfuel, harg]
  obtain ⟨g1, g2, g3, g4, g5, g6⟩ := regular_fit_go_congr dataset
    dataset.shape.1 mo.max_iter.toNat 0
    { mo with fitted := true,
              theta := some (List.replicate dataset.shape.2 0),
              theta_zero := some (0 : ℚ) }
    ((RidgeRegression.regular_fit_go dataset dataset.shape.1
        mo.max_iter.toNat 0
        { mo with fitted := true,
                  theta := some (List.replicate dataset.shape.2 0),
                  theta_zero := some (0 : ℚ) }).model.cost_history)
    (Or.inl rfl)
  obtain ⟨k1, k2, k3, k4, k5, k6⟩ := regular_fit_go_fields dataset
    dataset.shape.1 mo.max_iter.toNat 0
    { ({ mo with fitted := true,
                 theta := some (List.replicate dataset.shape.2 0),
                 theta_zero := some (0 : ℚ) } : RidgeRegression)
      with cost_history :=
        (RidgeRegression.regular_fit_go dataset dataset.shape.1
          mo.max_iter.toNat 0
          { mo with fitted := true,
                    theta := some (List.replicate dataset.shape.2 0),
                    theta_zero := some (0 : ℚ) }).model.cost_history }
  refine fitout_fields_determine ?_ g1 g2 g3
  refine ridge_fields_determine (k1.trans f1.symm) (k2.trans f2.symm)
    (k3.trans f3.symm) (k4.trans f4.symm) (k5.trans f5.symm)
    (k6.trans f6.symm) g4 g5 ?_
  funext j
  rw [g6 j]
  by_cases hj : 0 ≤ j ∧ j < (RidgeRegression.regular_fit_go dataset
      dataset.shape.1 mo.max_iter.toNat 0
      { mo with fitted := true,
                theta := some (List.replicate dataset.shape.2 0),
                theta_zero := some (0 : ℚ) }).iters
  · rw [if_pos hj]
  · rw [if_neg hj]

/-- Closed witness for claim C3 at a concrete model and dataset. -/
theorem C3_refit_idempotent_nonadaptive_witness :
    rrC3w.adaptative_alpha = false ∧ (rrC3w.fit ds2).err = none ∧
    ((rrC3w.fit ds2).model).fit ds2 = rrC3w.fit ds2 :=
  ⟨rfl, by with_unfolding_all decide,
   C3_refit_idempotent_nonadaptive rrC3w ds2 rfl
     (by with_unfolding_all decide)⟩

/-- Claim C4: for a parameter grid whose keys are all attributes of the model, with the default scoring and a model whose fit and score never raise, grid_search_cv returns exactly the product of the value-list lengths many score records; the carried hyperparameter combinations enumerate the Cartesian product of the value lists in declared key order with the first key varying slowest, and when the value lists are duplicate-free the carried combinations are pairwise distinct with no omissions. -/
theorem C4_grid_search_cartesian {σ V : Type} (E : PyEstimator σ V)
    (split : Dataset → ℚ → ℕ → Dataset × Dataset) (omega : ℕ → ℕ)
    (model : σ) (dataset : Dataset) (parameter_grid : List (String × List V))
    (cv : ℕ) (test_size : ℚ) (p : ℕ)
    (Hattr : ∀ k ∈ parameter_grid.map Prod.fst, E.hasattr k = true)
    (Hfit : ∀ s d, (E.fit s d).2 = none)
    (Hscore : ∀ s d, ∃ q, E.score s d = .ok q) :
    ∃ recs st2 p2,
      grid_search_cv E split omega model dataset parameter_grid cv
          test_size none p
        = (.ok recs, st2, p2) ∧
      recs.length = (parameter_grid.map (fun kv => kv.2.length)).prod ∧
      recs.map (fun r => r.parameters)
        = (cartProd (parameter_grid.map Prod.snd)).map
            (fun comb => (parameter_grid.map Prod.fst).zip comb) ∧
      ((∀ vs ∈ parameter_grid.map Prod.snd, vs.Nodup) →
        (recs.map (fun r => r.parameters)).Nodup) := by
  have hnone : (parameter_grid.map Prod.fst).find?
      (fun k => !(E.hasattr k)) = none := by
    rw [List.find?_eq_none]
    intro k hk
    simp [Hattr k hk]
  obtain ⟨recs, st2, p2, heq, hmap, hlen⟩ := grid_search_go_ok E split omega
    dataset cv test_size (parameter_grid.map Prod.fst) Hfit Hscore
    (cartProd (parameter_grid.map Prod.snd)) model p []
  refine ⟨recs, st2, p2, ?_, ?_, hmap, ?_⟩
  · unfold grid_search_cv
    rw [hnone]
    simpa using heq
  · rw [hlen, cartProd_length]
    simp [Function.comp]
    rfl
  · intro hvals
    rw [hmap]
    refine List.Nodup.map_on ?_ (cartProd_nodup _ hvals)
    intro c1 h1 c2 h2 hzip
    have e1 : c1.length = parameter_grid.length := by
      simpa using cartProd_mem_length _ c1 h1
    have e2 : c2.length = parameter_grid.length := by
      simpa using cartProd_mem_length _ c2 h2
    have k1 : ((parameter_grid.map Prod.fst).zip c1).map Prod.snd = c1 :=
      List.map_snd_zip _ _ (by simp [e1])
    have k2 : ((parameter_grid.map Prod.fst).zip c2).map Prod.snd = c2 :=
      List.map_snd_zip _ _ (by simp [e2])
    rw [← k1, ← k2, hzip]

/-- Closed witness for claim C4 on a concrete two-by-one grid. -/
theorem C4_grid_search_cartesian_witness :
    (∀ k ∈ ([("a", [(1 : ℚ), 2]), ("b", [3])].map Prod.fst),
      dummyEst.hasattr k = true) ∧
    (∀ (s : Unit) (d : Dataset), (dummyEst.fit s d).2 = none) ∧
    (∀ (s : Unit) (d : Dataset), ∃ q, dummyEst.score s d = .ok q) ∧
    (∃ recs st2 p2,
      grid_search_cv dummyEst split0 omega0 () ds2
          [("a", [(1 : ℚ), 2]), ("b", [3])] 2 (1/2) none 0
        = (.ok recs, st2, p2) ∧
      recs.length
        = (([("a", [(1 : ℚ), 2]), ("b", [3])]).map
            (fun kv => kv.2.length)).prod ∧
      recs.map (fun r => r.parameters)
        = (cartProd (([("a", [(1 : ℚ), 2]), ("b", [3])]).map Prod.snd)).map
            (fun comb =>
              (([("a", [(1 : ℚ), 2]), ("b", [3])]).map Prod.fst).zip comb) ∧
      ((∀ vs ∈ ([("a", [(1 : ℚ), 2]), ("b", [3])]).map Prod.snd, vs.Nodup) →
        (recs.map (fun r => r.parameters)).Nodup)) :=
  ⟨fun _ _ => rfl, fun _ _ => rfl, fun _ _ => ⟨0, rfl⟩,
   C4_grid_search_cartesian dummyEst split0 omega0 () ds2
     [("a", [(1 : ℚ), 2]), ("b", [3])] 2 (1/2) 0
     (fun _ _ => rfl) (fun _ _ => rfl) (fun _ _ => ⟨0, rfl⟩)⟩

/-- Claim C5: in the non-adaptive policy a successful fit performs between one and max_iter iterations, the convergence test of the first iteration reads the missing previous cost as +infinity and is false, every iteration before the last tests negative, and an exit before max_iter happens exactly on a positive test, after which no further iteration occurs; in the adaptive policy the loop always performs exactly max_iter iterations and the final alpha is the initial alpha divided by two to the number of positive tests. -/
theorem C5_stopping_rule (mo : RidgeRegression) (dataset : Dataset)
    (hmi : (1 : ℤ) ≤ mo.max_iter) :
    (mo.adaptative_alpha = false → ∀ r : FitOut, mo.fit dataset = r →
      r.err = none →
      r.iters = r.costs.length ∧
      1 ≤ r.costs.length ∧
      r.costs.length ≤ mo.max_iter.toNat ∧
      (convFlags mo.tolerance none r.costs).head? = some false ∧
      (convFlags mo.tolerance none r.costs).take (r.costs.length - 1)
        = List.replicate (r.costs.length - 1) false ∧
      (r.costs.length < mo.max_iter.toNat →
        (convFlags mo.tolerance none r.costs).drop (r.costs.length - 1)
          = [true])) ∧
    (mo.adaptative_alpha = true → ∀ r : FitOut, mo.fit dataset = r →
      r.err = none →
      r.iters = mo.max_iter.toNat ∧
      r.costs.length = mo.max_iter.toNat ∧
      r.model.alpha = mo.alpha
        / 2 ^ ((convFlags mo.tolerance none r.costs).count true)) := by
  have hsplit : mo.fit dataset
      = if mo.adaptative_alpha then
          RidgeRegression.adaptative_fit { mo with fitted := true } dataset
        else
          RidgeRegression.regular_fit { mo with fitted := true } dataset := rfl
  constructor
  · intro had r hr herr
    rw [hsplit, if_neg (by simp [had])] at hr
    have hreg : RidgeRegression.regular_fit { mo with fitted := true } dataset
        = RidgeRegression.regular_fit_go dataset dataset.shape.1
            mo.max_iter.toNat 0
            { mo with fitted := true,
                      theta := some (List.replicate dataset.shape.2 0),
                      theta_zero := some (0 : ℚ) } := rfl
    rw [hreg] at hr
    obtain ⟨g1, g2, g3, g4, g5⟩ := regular_fit_go_spec dataset
      dataset.shape.1 mo.max_iter.toNat 0
      { mo with fitted := true,
                theta := some (List.replicate dataset.shape.2 0),
                theta_zero := some (0 : ℚ) }
      none r rfl hr herr
    have hlen : 1 ≤ r.costs.length := g3 (by omega)
    exact ⟨by omega, hlen, g2, convFlags_head _ _ hlen, g4, g5⟩
  · intro had r hr herr
    rw [hsplit, if_pos (by simp [had])] at hr
    have hada : RidgeRegression.adaptative_fit { mo with fitted := true }
          dataset
        = RidgeRegression.adaptative_fit_go dataset dataset.shape.1
            mo.max_iter.toNat 0
            { mo with fitted := true,
                      theta := some (List.replicate dataset.shape.2 0),
                      theta_zero := some (0 : ℚ) } := rfl
    rw [hada] at hr
    obtain ⟨g1, g2, g3⟩ := adaptative_fit_go_spec dataset
      dataset.shape.1 mo.max_iter.toNat 0
      { mo with fitted := true,
                theta := some (List.replicate dataset.shape.2 0),
                theta_zero := some (0 : ℚ) }
      none r rfl hr herr
    exact ⟨by omega, g2, g3⟩

/-- Closed witness for claim C5: a regular fit that exits early and an adaptive fit that runs to max_iter with alpha halved. -/
theorem C5_stopping_rule_witness :
    ((1 : ℤ) ≤ rrC5r.max_iter ∧ rrC5r.adaptative_alpha = false ∧
      (rrC5r.fit ds2).err = none ∧
      (1 : ℤ) ≤ rrC5a.max_iter ∧ rrC5a.adaptative_alpha = true ∧
      (rrC5a.fit ds2).err = none) ∧
    ((rrC5r.fit ds2).iters = (rrC5r.fit ds2).costs.length ∧
      1 ≤ (rrC5r.fit ds2).costs.length ∧
      (rrC5r.fit ds2).costs.length ≤ rrC5r.max_iter.toNat ∧
      (convFlags rrC5r.tolerance none (rrC5r.fit ds2).costs).head?
        = some false) ∧
    ((rrC5a.fit ds2).iters = rrC5a.max_iter.toNat ∧
      (rrC5a.fit ds2).costs.length = rrC5a.max_iter.toNat ∧
      (rrC5a.fit ds2).model.alpha = rrC5a.alpha
        / 2 ^ ((convFlags rrC5a.tolerance none
            (rrC5a.fit ds2).costs).count true)) := by
  have hr := (C5_stopping_rule rrC5r ds2 (by decide)).1 rfl
    (rrC5r.fit ds2) rfl (by with_unfolding_all decide)
  have ha := (C5_stopping_rule rrC5a ds2 (by decide)).2 rfl
    (rrC5a.fit ds2) rfl (by with_unfolding_all decide)
  exact ⟨⟨by decide, rfl, by with_unfolding_all decide, by decide, rfl,
      by with_unfolding_all decide⟩,
    ⟨hr.1, hr.2.1, hr.2.2.1, hr.2.2.2.1⟩, ha⟩

/-- Claim C6: predict, score and cost on a freshly constructed, never fitted model all fail with the unfitted-model error, raised as the builtin Warning in the source. -/
theorem C6_unfitted_guard (l2 a : ℚ) (mi : ℤ) (tol : ℚ) (ad : Bool)
    (mo : RidgeRegression) (dataset : Dataset)
    (h : RidgeRegression.new l2 a mi tol ad = .ok mo) :
    mo.predict dataset
        = .error (.warning ("Fit RidgeRegression before calling predict.")) ∧
    mo.score dataset
        = .error (.warning ("Fit RidgeRegression before calling score.")) ∧
    mo.cost dataset
        = .error (.warning ("Fit RidgeRegression before calling cost.")) := by
  have hfit : mo.fitted = false := by
    unfold RidgeRegression.new at h
    cases hc : check_init l2 a mi tol with
    | error e => rw [hc] at h; cases h
    | ok u => rw [hc] at h; cases h; rfl
  refine ⟨?_, ?_, ?_⟩ <;>
    simp [RidgeRegression.predict, RidgeRegression.score,
      RidgeRegression.cost, hfit]

/-- Closed witness for claim C6 at concrete constructor arguments. -/
theorem C6_unfitted_guard_witness :
    RidgeRegression.new 1 (1/2) 1000 1 false = .ok rrFreshC6 ∧
    (rrFreshC6.predict ds2
        = .error (.warning ("Fit RidgeRegression before calling predict.")) ∧
     rrFreshC6.score ds2
        = .error (.warning ("Fit RidgeRegression before calling score.")) ∧
     rrFreshC6.cost ds2
        = .error (.warning ("Fit RidgeRegression before calling cost."))) :=
  ⟨by with_unfolding_all rfl,
   C6_unfitted_guard 1 (1/2) 1000 1 false rrFreshC6 ds2
     (by with_unfolding_all rfl)⟩

/-- Claim C7: a parameter grid containing a name that is not an attribute of the model makes grid_search_cv fail with AttributeError naming the model class and the first offending parameter, and the model state and ambient random stream position are returned untouched, so no fold split, fit or scoring happens before the raise. -/
theorem C7_unknown_parameter {σ V : Type} (E : PyEstimator σ V)
    (split : Dataset → ℚ → ℕ → Dataset × Dataset) (omega : ℕ → ℕ)
    (model : σ) (dataset : Dataset) (parameter_grid : List (String × List V))
    (cv : ℕ) (test_size : ℚ) (scoring : Option (List ℚ → List ℚ → ℚ))
    (p : ℕ) (bad : String)
    (h : (parameter_grid.map Prod.fst).find? (fun k => !(E.hasattr k))
        = some bad) :
    grid_search_cv E split omega model dataset parameter_grid cv test_size
        scoring p
      = (.error (.attributeError
          ("The model " ++ E.className ++ " does not have the parameter "
            ++ bad ++ ".")), model, p) := by
  unfold grid_search_cv
  rw [h]

/-- Closed witness for claim C7 with a model lacking the grid key. -/
theorem C7_unknown_parameter_witness :
    ((([("unknown_param", [(10 : ℚ), 20])].map Prod.fst).find?
        (fun k => !(estNoUnknown.hasattr k))) = some "unknown_param") ∧
    grid_search_cv estNoUnknown split0 omega0 () ds2
        [("unknown_param", [(10 : ℚ), 20])] 5 (3/10) none 0
      = (.error (.attributeError
          ("The model LogisticRegression does not have the parameter unknown_param.")),
         (), 0) := by
  refine ⟨by with_unfolding_all rfl, ?_⟩
  have := C7_unknown_parameter estNoUnknown split0 omega0 () ds2
    [("unknown_param", [(10 : ℚ), 20])] 5 (3/10) none 0 "unknown_param"
    (by with_unfolding_all rfl)
  simpa [estNoUnknown] using this

/-- Claim C8: construction fails with ValueError naming the offending parameter exactly when l2_penalty is nonpositive, alpha is nonpositive, max_iter is below one, or tolerance is nonpositive, checked in that order, and otherwise succeeds with the documented initial attribute values. -/
theorem C8_init_validation (l2 a : ℚ) (mi : ℤ) (tol : ℚ) (ad : Bool) :
    (l2 ≤ 0 → RidgeRegression.new l2 a mi tol ad
      = .error (.valueError ("The value of l2_penalty must be positive."))) ∧
    (0 < l2 → a ≤ 0 → RidgeRegression.new l2 a mi tol ad
      = .error (.valueError ("The value of alpha must be positive."))) ∧
    (0 < l2 → 0 < a → mi < 1 → RidgeRegression.new l2 a mi tol ad
      = .error (.valueError ("The value of max_iter must be a positive integer."))) ∧
    (0 < l2 → 0 < a → 1 ≤ mi → tol ≤ 0 → RidgeRegression.new l2 a mi tol ad
      = .error (.valueError ("The value of tolerance must be positive."))) ∧
    (0 < l2 → 0 < a → 1 ≤ mi → 0 < tol → RidgeRegression.new l2 a mi tol ad
      = .ok ⟨l2, a, mi, tol, ad, false, none, none, fun _ => none⟩) := by
  refine ⟨fun h1 => ?_, fun h1 h2 => ?_, fun h1 h2 h3 => ?_,
    fun h1 h2 h3 h4 => ?_, fun h1 h2 h3 h4 => ?_⟩
  · simp [RidgeRegression.new, check_init, h1]
  · simp [RidgeRegression.new, check_init, not_le.mpr h1, h2]
  · simp [RidgeRegression.new, check_init, not_le.mpr h1, not_le.mpr h2, h3]
  · simp [RidgeRegression.new, check_init, not_le.mpr h1, not_le.mpr h2,
      not_lt.mpr h3, h4]
  · simp [RidgeRegression.new, check_init, not_le.mpr h1, not_le.mpr h2,
      not_lt.mpr h3, not_le.mpr h4]

/-- Closed witness for claim C8: l2_penalty = -1 fails, a valid parameterisation succeeds. -/
theorem C8_init_validation_witness :
    RidgeRegression.new (-1) (1/1000) 1000 1 false
      = .error (.valueError ("The value of l2_penalty must be positive.")) ∧
    RidgeRegression.new 1 (1/1000) 1000 1 false
      = .ok ⟨1, 1/1000, 1000, 1, false, false, none, none, fun _ => none⟩ :=
  ⟨(C8_init_validation (-1) (1/1000) 1000 1 false).1 (by norm_num),
   (C8_init_validation 1 (1/1000) 1000 1 false).2.2.2.2
     (by norm_num) (by norm_num) (by norm_num) (by norm_num)⟩

/-- Claim C9: cross_validate should return three parallel sequences of length exactly cv for every scoring argument; with an external scoring function the code instead raises NameError from the undefined name score and returns no sequences at all. This closed evaluation exhibits the failure at cv = 2; with scoring None the length property does hold, see cross_validate_ok. -/
theorem C9_cross_validate_scoring_fold_bug :
    cross_validate dummyEst split0 omega0 () ds2 2 (1/2)
        (some (fun _ _ => (0 : ℚ))) 0
      = (.error (.nameError ("name score is not defined")), (), 1) := by
  with_unfolding_all rfl

/-- Claim C10: fit sets the fitted flag before the gradient-descent loop starts, so the flag is true after every fit call, including one that raised partway; concretely, on a malformed dataset fit raises, leaves fitted true, and a subsequent predict call on a well-formed dataset passes the unfitted guard and succeeds. -/
theorem C10_fitted_flag_set_before_loop :
    (∀ (mo : RidgeRegression) (dataset : Dataset),
      ((mo.fit dataset).model).fitted = true) ∧
    ((rrC10.fit dsMalformed).err).isSome = true ∧
    ((rrC10.fit dsMalformed).model).fitted = true ∧
    ((rrC10.fit dsMalformed).model).predict dsSingle = .ok [0] := by
  refine ⟨?_, by with_unfolding_all decide, by with_unfolding_all decide, by with_unfolding_all decide⟩
  intro mo dataset
  unfold RidgeRegression.fit
  split
  · have := adaptative_fit_go_fields dataset dataset.shape.1
      mo.max_iter.toNat 0
      { mo with fitted := true,
                theta := some (List.replicate dataset.shape.2 0),
                theta_zero := some (0 : ℚ) }
    simpa [RidgeRegression.adaptative_fit] using this.2.2.2.2
  · have := regular_fit_go_fields dataset dataset.shape.1
      mo.max_iter.toNat 0
      { mo with fitted := true,
                theta := some (List.replicate dataset.shape.2 0),
                theta_zero := some (0 : ℚ) }
    simpa [RidgeRegression.regular_fit] using this.2.2.2.2.2
